import Mathlib

/-!
Shallow embedding of the core task runtime of `powerbase/core/task/base.py`
(the `Task` class): the status setter and the log record it emits, the
`run_as_main` control flow with its sentinel exceptions, the `__bool__`
should-run check, the name setter with the session registry, the
`__getstate__` transport snapshot, and the proof-of-start loop
`_lock_to_run_log`.  Python machine state (locals, object attributes, the
condition heap) is made explicit; fallible code returns `Except`.
-/

namespace Powerbase

/-- An abstract Python value (task outputs, attribute values). -/
inductive PyVal where
  | none
  | int (n : Int)
  | str (s : String)
  | bool (b : Bool)
deriving Repr, DecidableEq

/-- Python exceptions the core distinguishes: the three sentinel exceptions
(`SchedulerRestart`, `TaskInactionException`, `TaskTerminationException`),
ordinary exceptions carrying their `str` form, `UnboundLocalError` for a
local variable read before assignment, and `KeyError`. -/
inductive PyExc where
  | schedulerRestart
  | taskInaction
  | taskTermination
  | error (msg : String)
  | unboundLocal (var : String)
  | keyError (msg : String)
deriving Repr, DecidableEq

/-- One log record as produced by the status setter
(`base.py`, `status.setter`): task name, action, message, the `start`,
`end` and `runtime` entries of `extra`, and whether it was emitted through
`logger.exception` (`exc_info`, used for `fail`) rather than `logger.info`. -/
structure LogRecord where
  task_name : String
  action : String
  message : String
  start : Option Nat
  stop : Option Nat
  runtime : Option Int
  exc_info : Bool
deriving Repr, DecidableEq

/-- `Task._actions`: the accepted actions, Python `None` included. -/
def _actions : List (Option String) :=
  [some "run", some "fail", some "success", some "inaction",
   some "terminate", none, some "crash_release"]

/-- The value assigned to `Task.status`: either a bare action or an
`(action, message)` tuple, as accepted by the setter. -/
inductive StatusValue where
  | bare (a : Option String)
  | pair (a : Option String) (message : String)
deriving Repr, DecidableEq

/-- The action component of a status assignment (`value[0]` for a tuple,
the value itself otherwise). -/
def StatusValue.action : StatusValue → Option String
  | .bare a => a
  | .pair a _ => a

/-- The message component (`value[1]` for a tuple, `""` otherwise). -/
def StatusValue.message : StatusValue → String
  | .bare _ => ""
  | .pair _ m => m

/-- The relevant mutable attributes of a `Task` object.  `_status` is the
cached status field, `start_time` is `None`-able (`hasattr` is modelled by
`Option`), `force_run` is a Python tri-state (`True` / `False` / `None`),
`thread_terminate` is the threading event's set flag, `exception` the
attribute attached on failure.  The `has_on_*` flags record whether the
corresponding user callback is set (Python truthiness of `self.on_*`).
`start_cond` is a reference into the condition heap (see `CondStore`). -/
structure Task where
  name : String
  _status : Option String := none
  start_time : Option Nat := none
  force_run : Option Bool := some false
  disabled : Bool := false
  force_termination : Bool := false
  thread_terminate : Bool := false
  exception : Option PyExc := none
  has_on_success : Bool := false
  has_on_failure : Bool := false
  has_on_finish : Bool := false
  start_cond : Nat := 0
deriving Repr, DecidableEq

/-- Decidable equality on `Except`, so closed propositions about
fallible operations evaluate. -/
instance instDecEqExcept {ε α : Type} [DecidableEq ε] [DecidableEq α] :
    DecidableEq (Except ε α) := fun a b =>
  match a, b with
  | .error x, .error y =>
    if h : x = y then isTrue (by rw [h])
    else isFalse (fun e => h (by injection e))
  | .ok x, .ok y =>
    if h : x = y then isTrue (by rw [h])
    else isFalse (fun e => h (by injection e))
  | .error _, .ok _ => isFalse (fun e => Except.noConfusion e)
  | .ok _, .error _ => isFalse (fun e => Except.noConfusion e)

/-- Python `str(action)` for the `KeyError` message. -/
def actionText : Option String → String
  | none => "None"
  | some s => s

/-- `now - start_time` as the record's `runtime`. -/
def runtimeOf (start_time : Option Nat) (now : Nat) : Option Int :=
  start_time.map (fun s => (now : Int) - (s : Int))

/-- The `status` setter (`base.py` lines 643–670).  Unpacks a tuple into
action and message, raises `KeyError` for an action not in `_actions`
(before any mutation, which the `Except.error` result reflects: no new
task state and no record exist), otherwise, unless the action is `None`,
emits one record — for `run` it carries `start := now` and sets
`start_time`; for the rest it carries `start := start_time`,
`end := now` and `runtime := now - start_time` — through
`logger.exception` when the action is `fail` and `logger.info` otherwise,
and finally stores the bare action in `_status`. -/
def setStatus (t : Task) (now : Nat) (v : StatusValue) :
    Except PyExc (Task × List LogRecord) :=
  let action := v.action
  let message := v.message
  if action ∉ _actions then
    .error (.keyError ("Invalid action: " ++ actionText action))
  else
    match action with
    | none => .ok ({ t with _status := none }, [])
    | some a =>
      if a = "run" then
        .ok ({ t with start_time := some now, _status := some a },
          [{ task_name := t.name, action := a, message := message,
             start := some now, stop := none, runtime := none,
             exc_info := false }])
      else
        let st := t.start_time
        .ok ({ t with _status := some a },
          [{ task_name := t.name, action := a, message := message,
             start := st, stop := some now,
             runtime := runtimeOf st now,
             exc_info := a = "fail" }])

/-- `setStatus` for the in-bounds actions the logging helpers use; the
fallback is never reached for them (`setStatus` only fails on an action
outside `_actions`). -/
def setStatusD (t : Task) (now : Nat) (v : StatusValue) :
    Task × List LogRecord :=
  match setStatus t now v with
  | .ok p => p
  | .error _ => (t, [])

/-- `Task.log_running`: `self.status = "run"`. -/
def log_running (t : Task) (now : Nat) : Task × List LogRecord :=
  setStatusD t now (.bare (some "run"))

/-- `Task.log_success`: `self.status = "success"`. -/
def log_success (t : Task) (now : Nat) : Task × List LogRecord :=
  setStatusD t now (.bare (some "success"))

/-- `Task.log_inaction`: `self.status = "inaction"`. -/
def log_inaction (t : Task) (now : Nat) : Task × List LogRecord :=
  setStatusD t now (.bare (some "inaction"))

/-- `Task.log_failure`: `self.status = "fail", f"Task \'{self.name}\' failed"`
— the message is this fixed string built from the task name. -/
def log_failure (t : Task) (now : Nat) : Task × List LogRecord :=
  setStatusD t now (.pair (some "fail") ("Task \'" ++ t.name ++ "\' failed"))

/-- `Task.log_termination`: `reason = reason or "unknown reason"` (Python
`or`: an absent or empty reason falls back), then
`self.status = "terminate", reason`, then the thread-terminate event is
cleared and `force_termination` reset. -/
def log_termination (t : Task) (now : Nat) (reason : Option String) :
    Task × List LogRecord :=
  let reason := match reason with
    | none => "unknown reason"
    | some r => if r = "" then "unknown reason" else r
  let p := setStatusD t now (.pair (some "terminate") reason)
  ({ p.1 with thread_terminate := false, force_termination := false }, p.2)

/-- An observable event of `run_as_main`: a record reaching the logger, or
a user callback invocation (`on_success(output)`, `on_failure(exception)`,
`on_finish(status)`). -/
inductive Event where
  | record (r : LogRecord)
  | onSuccess (output : PyVal)
  | onFailure (e : PyExc)
  | onFinish (status : Option String)
deriving Repr, DecidableEq

/-- `Task.process_success`: `if self.on_success: self.on_success(output)`. -/
def process_success (t : Task) (output : PyVal) : List Event :=
  if t.has_on_success then [.onSuccess output] else []

/-- `Task.process_failure`: `if self.on_failure: self.on_failure(exception=exception)`. -/
def process_failure (t : Task) (e : PyExc) : List Event :=
  if t.has_on_failure then [.onFailure e] else []

/-- `Task.process_finish`: `if self.on_finish: self.on_finish(status)`. -/
def process_finish (t : Task) (status : Option String) : List Event :=
  if t.has_on_finish then [.onFinish status] else []

/-- How `run_as_main` ends for its caller: a Python return value or a
propagated exception. -/
inductive RunOutcome where
  | returned (v : PyVal)
  | raised (e : PyExc)
deriving Repr, DecidableEq

/-- The effect of one `run_as_main` call: the task's final state, the
ordered events (records and callback invocations), and the outcome. -/
structure MainResult where
  task : Task
  events : List Event
  outcome : RunOutcome
deriving Repr, DecidableEq

/-- Reading a Python local variable: `UnboundLocalError` when it was never
assigned on the path reaching the read. -/
def readLocal (var : String) : Option PyVal → Except PyExc PyVal
  | none => .error (.unboundLocal var)
  | some v => .ok v

/-- `Task.run_as_main` (`base.py` lines 312–380).  The whole `try` block —
parameter filtering, materialisation and `execute_action` — is abstracted
into `body`: `.ok output` when it returns `output`, `.error e` when it
raises `e`.  The local `output` is bound only when the `try` block
returned, which `output?` records; `status` is the local the handlers set
before `finally` calls `process_finish(status)` and clears `force_run` to
`None`.  `now₁` is the clock at the `run` record, `now₂` at the terminal
record.

Branches, in the source's order of `except` clauses:
* `SchedulerRestart`: `log_success()`, `status = "succeeded"`, then
  `self.process_success(output)` — evaluating the argument reads the
  unbound local `output`, so it raises before `on_success` can run and
  the `raise` re-raising `SchedulerRestart` is never reached;
* `TaskInactionException`: `log_inaction()`, `status = "inaction"`, falls
  through to `finally` and returns `None`;
* `TaskTerminationException`: `log_termination()`, `status = "termination"`,
  returns `None`;
* any other exception: `log_failure()`, `status = "failed"`,
  `process_failure(exception)`, `self.exception = exception`, re-`raise`;
* no exception: `log_success()`, `status = "succeeded"`,
  `process_success(output)`, `return output`. -/
def run_as_main (t : Task) (now₁ now₂ : Nat) (body : Except PyExc PyVal)
    (_log_running : Bool) : MainResult :=
  let p₀ := if _log_running then log_running t now₁ else (t, [])
  let t₀ := p₀.1
  let recs₀ : List Event := p₀.2.map .record
  let output? : Option PyVal := match body with
    | .ok v => some v
    | .error _ => none
  match body with
  | .ok output =>
    let p₁ := log_success t₀ now₂
    let status : Option String := some "succeeded"
    let evs := process_success p₁.1 output
    let evFin := process_finish p₁.1 status
    { task := { p₁.1 with force_run := none },
      events := recs₀ ++ p₁.2.map .record ++ evs ++ evFin,
      outcome := .returned output }
  | .error e =>
    match e with
    | .schedulerRestart =>
      let p₁ := log_success t₀ now₂
      let status : Option String := some "succeeded"
      match readLocal "output" output? with
      | .ok v =>
        let evs := process_success p₁.1 v
        let evFin := process_finish p₁.1 status
        { task := { p₁.1 with force_run := none },
          events := recs₀ ++ p₁.2.map .record ++ evs ++ evFin,
          outcome := .raised .schedulerRestart }
      | .error e' =>
        let evFin := process_finish p₁.1 status
        { task := { p₁.1 with force_run := none },
          events := recs₀ ++ p₁.2.map .record ++ evFin,
          outcome := .raised e' }
    | .taskInaction =>
      let p₁ := log_inaction t₀ now₂
      let status : Option String := some "inaction"
      let evFin := process_finish p₁.1 status
      { task := { p₁.1 with force_run := none },
        events := recs₀ ++ p₁.2.map .record ++ evFin,
        outcome := .returned .none }
    | .taskTermination =>
      let p₁ := log_termination t₀ now₂ none
      let status : Option String := some "termination"
      let evFin := process_finish p₁.1 status
      { task := { p₁.1 with force_run := none },
        events := recs₀ ++ p₁.2.map .record ++ evFin,
        outcome := .returned .none }
    | _ =>
      let p₁ := log_failure t₀ now₂
      let status : Option String := some "failed"
      let evFail := process_failure p₁.1 e
      let t₂ := { p₁.1 with exception := some e }
      let evFin := process_finish t₂ status
      { task := { t₂ with force_run := none },
        events := recs₀ ++ p₁.2.map .record ++ evFail ++ evFin,
        outcome := .raised e }

/-- Modelled from the spec: the condition classes (`AlwaysTrue`,
`AlwaysFalse` and the combinators `All` = ∧, `Any` = ∨, `Not` = ¬ of
§4.1) live in `powerbase/core/conditions`, which is not among the source
files.  A condition is a Python object, so an internal node holds
*references* to its child objects; the heap is made explicit below and a
node is one heap cell. -/
inductive CondNode where
  | alwaysTrue
  | alwaysFalse
  | allOf (children : List Nat)
  | anyOf (children : List Nat)
  | notOf (child : Nat)
deriving Repr, DecidableEq

/-- The heap of condition objects: a reference is an index. -/
abbrev CondStore := List CondNode

/-- The child references of one node. -/
def childRefs : CondNode → List Nat
  | .allOf cs => cs
  | .anyOf cs => cs
  | .notOf c => [c]
  | _ => []

/-- Modelled from the spec: `evaluate()` of §4.1 — a leaf yields its
constant, `All` conjoins, `Any` disjoins, `Not` negates.  `fuel` bounds
the dereferencing depth (Python objects may alias); a dangling reference
or exhausted fuel yields `false`. -/
def evalCond (σ : CondStore) : Nat → Nat → Bool
  | 0, _ => false
  | fuel + 1, r =>
    match σ[r]? with
    | Option.none => false
    | some .alwaysTrue => true
    | some .alwaysFalse => false
    | some (.allOf cs) => cs.all (fun c => evalCond σ fuel c)
    | some (.anyOf cs) => cs.any (fun c => evalCond σ fuel c)
    | some (.notOf c) => !evalCond σ fuel c

/-- Whether `target` is reachable from `r` by dereferencing at most
`fuel` child edges. -/
def reachesWithin (σ : CondStore) : Nat → Nat → Nat → Bool
  | 0, r, target => r = target
  | fuel + 1, r, target =>
    r = target ||
      match σ[r]? with
      | Option.none => false
      | some n => (childRefs n).any (fun c => reachesWithin σ fuel c target)

/-- Python's `copy.copy` on a condition object (`base.py` line 169 imports
`copy` from the `copy` module): allocates one fresh object whose fields
equal the original's — child *references* included, so children are
shared.  Returns the new heap and the fresh reference; copying a dangling
reference is the identity. -/
def shallowCopy (σ : CondStore) (r : Nat) : CondStore × Nat :=
  match σ[r]? with
  | Option.none => (σ, r)
  | some n => (σ ++ [n], σ.length)

/-- The `start_cond` property setter (`base.py` lines 210–218): after
validation and `set_statement_defaults` — which binds a default task into
leaves and, for the node shapes modelled here (no task slot), changes no
heap cell — the given object itself is stored: `self._start_cond = cond`,
with **no** copy. -/
def set_start_cond (t : Task) (cond : Nat) : Task :=
  { t with start_cond := cond }

/-- The `__init__` assignment (`base.py` line 169):
`self.start_cond = AlwaysFalse() if start_cond is None else copy(start_cond)`,
routed through the property setter.  Returns the updated heap and task. -/
def init_start_cond (σ : CondStore) (t : Task) :
    Option Nat → CondStore × Task
  | Option.none => (σ ++ [.alwaysFalse], set_start_cond t σ.length)
  | some r =>
    let p := shallowCopy σ r
    (p.1, set_start_cond t p.2)

/-- Python truthiness of the tri-state `force_run` (`None` and `False`
are falsy). -/
def pyTruthy : Option Bool → Bool
  | Option.none => false
  | some b => b

/-- `Task.__bool__` (`base.py` lines 295–310): `force_run` short-circuits
to `True`; otherwise `disabled` short-circuits to `False`; otherwise
`bool(self.start_cond)` decides. -/
def task_bool (σ : CondStore) (fuel : Nat) (t : Task) : Bool :=
  if pyTruthy t.force_run then true
  else if t.disabled then false
  else evalCond σ fuel t.start_cond

/-- The session's task registry, a Python `dict` mapping a task name to a
task (tasks are identified here by a numeric identity); insertion order
is kept, as in a `dict`. -/
abbrev Registry := List (String × Nat)

/-- `name in self.session.tasks` / `self.session.tasks[name]`. -/
def lookupTask : Registry → String → Option Nat
  | [], _ => Option.none
  | p :: ps, k => if p.1 = k then some p.2 else lookupTask ps k

/-- `self.session.tasks[name] = self`: rebind the key if present (a
`dict` keeps one binding per key), else append it. -/
def insertTask : Registry → String → Nat → Registry
  | [], k, v => [(k, v)]
  | p :: ps, k, v => if p.1 = k then (k, v) :: ps else p :: insertTask ps k v

/-- `del self.session.tasks[old_name]`: drop the key's binding. -/
def removeTask : Registry → String → Registry
  | [], _ => []
  | p :: ps, k => if p.1 = k then removeTask ps k else p :: removeTask ps k

/-- The state the name setter touches: the session registry and the
task's own `_name` attribute (`Option` models `hasattr(self, "_name")`). -/
structure NameState where
  session : Registry
  _name : Option String
deriving Repr, DecidableEq

/-- The tail of the name setter (`base.py` lines 543–546):
`self._name = str(name)`, then `del self.session.tasks[old_name]` when an
old name exists. -/
def finishAssign (st : NameState) (name : String) (old_name : Option String) :
    NameState :=
  let st₁ : NameState := { st with _name := some name }
  match old_name with
  | Option.none => st₁
  | some old => { st₁ with session := removeTask st₁.session old }

/-- `for i in count(): new_name = name + str(i); if new_name not in ...`:
the least `i ≥ start` whose suffixed name is free, searched with `fuel`
iterations. -/
def findFreeSuffix (reg : Registry) (name : String) :
    Nat → Nat → Option Nat
  | 0, _ => Option.none
  | fuel + 1, i =>
    if (lookupTask reg (name ++ toString i)).isNone then some i
    else findFreeSuffix reg name fuel (i + 1)

/-- The least `i` with `name + str(i)` free.  A free suffix exists among
`i = 0 … reg.length` because those `reg.length + 1` candidate names are
pairwise distinct while the registry holds at most `reg.length` keys, so
the bounded search computes the same value as Python's unbounded
`count()` loop. -/
def firstFreeSuffix (reg : Registry) (name : String) : Option Nat :=
  findFreeSuffix reg name (reg.length + 1) 0

/-- The `name` property setter (`base.py` lines 511–546), for the task
identified by `tid`.  `name := none` models passing `None`, in which case
`default_name` stands for `id(self)` or `self.get_default_name()`
(whichever `use_instance_naming` selects).  A no-op when the resolved
name equals the old one; on a collision the `on_task_pre_exists` policy
decides: `replace` rebinds the key, `raise` raises `KeyError`, `ignore`
(and any unrecognised policy, which falls through the `elif` chain) skips
the insert, `rename` recurses with the smallest free integer suffix and
returns; without a collision the key is inserted.  Every non-`rename`,
non-`raise` path then runs the tail: set `_name`, delete the old key.
`fuel` bounds the `rename` recursion (depth 2 suffices, since the
suffixed name is free). -/
def setName (policy : String) : Nat → NameState → Nat → Option String →
    String → Except PyExc NameState
  | 0, _, _, _, _ => .error (.error "recursion limit")
  | fuel + 1, st, tid, name, default_name =>
    let old_name := st._name
    let name := match name with
      | Option.none => default_name
      | some n => n
    if some name = old_name then .ok st
    else if (lookupTask st.session name).isSome then
      if policy = "replace" then
        .ok (finishAssign { st with session := insertTask st.session name tid }
          name old_name)
      else if policy = "raise" then
        .error (.keyError ("Task " ++ name ++ " already exists."))
      else if policy = "ignore" then
        .ok (finishAssign st name old_name)
      else if policy = "rename" then
        match firstFreeSuffix st.session name with
        | some i =>
          setName policy fuel st tid (some (name ++ toString i)) default_name
        | Option.none => .error (.error "no free suffix")
      else
        .ok (finishAssign st name old_name)
    else
      .ok (finishAssign { st with session := insertTask st.session name tid }
        name old_name)

/-- A Python object's `__dict__`: attribute name to value. -/
abbrev ObjDict := List (String × PyVal)

/-- `state[key] = value` on the copied `__dict__`: rebind the key if
present (a `dict` keeps one binding per key), else add it. -/
def setItem : ObjDict → String → PyVal → ObjDict
  | [], k, v => [(k, v)]
  | p :: ps, k, v => if p.1 = k then (k, v) :: ps else p :: setItem ps k v

/-- `state[key]`. -/
def getItem : ObjDict → String → Option PyVal
  | [], _ => Option.none
  | p :: ps, k => if p.1 = k then some p.2 else getItem ps k

/-- The keys `__getstate__` overwrites with `None`, in the source's
order: logger, start/end conditions, worker process and thread handles,
the thread-terminate event, the lock. -/
def excludedKeys : List String :=
  ["_logger", "_start_cond", "_end_cond", "_process", "_thread",
   "_thread_terminate", "_lock"]

/-- `Task.__getstate__` (`base.py` lines 677–695): copy `__dict__`, then
set each excluded key to `None`, one assignment after the other. -/
def getstate (d : ObjDict) : ObjDict :=
  excludedKeys.foldl (fun s k => setItem s k .none) d

/-- A record as it travels over the cross-process log bridge: the fields
`_lock_to_run_log` and `log_record` consume. -/
structure BridgeRecord where
  task_name : String
  action : String
  message : String
deriving Repr, DecidableEq

/-- `Task.log_record` (`base.py` lines 622–625): re-emit the record
through the parent logger (`self.logger.handle(record)`) and write the
cached status from it: `self._status = record.action`. -/
def log_record (t : Task) (r : BridgeRecord) : Task :=
  { t with _status := some r.action }

/-- The session's name → task directory, and
`self.session.get_task(record.task_name)` followed by
`task.log_record(record)` (modelled from the spec for `get_task` itself,
which is session code outside the sources: a registry lookup by name). -/
abbrev TaskDir := List (String × Task)

/-- Replay one bridge record into the named task of the session. -/
def replayRecord (dir : TaskDir) (r : BridgeRecord) : TaskDir :=
  dir.map (fun p => if p.1 = r.task_name then (p.1, log_record p.2 r) else p)

/-- One observed iteration of the `_lock_to_run_log` loop: either
`log_queue.get(block=True, timeout=10)` returned a record, or it raised
`Empty` after the 10-second timeout — with the worker then found alive or
dead by `self.is_alive()`. -/
inductive PopEvent where
  | popped (r : BridgeRecord)
  | timeoutAlive
  | timeoutDead
deriving Repr, DecidableEq

/-- `timeout = 10  # Seconds allowed the setup to take …`. -/
def setupTimeout : Nat := 10

/-- How the proof-of-start loop ended. -/
inductive LockResult where
  | sawRun
  | crashedSetup
  | starved
deriving Repr, DecidableEq

/-- The outcome of `_lock_to_run_log`: the session directory after the
replays, the bridge records replayed via `log_record`, the records the
dispatcher logged through its own logger (the critical setup-crash
record), and how the loop ended. -/
structure LockLogOutcome where
  dir : TaskDir
  handled : List BridgeRecord
  selfLog : List LogRecord
  result : LockResult
deriving Repr, DecidableEq

/-- `Task._lock_to_run_log` (`base.py` lines 561–580), driven by the
sequence of pop outcomes.  `while action != "run"`: pop with the blocking
10-second timeout; on `Empty`, only when `self.is_alive()` is false log
`Task \'<name>\' crashed in setup` (action `fail`, through
`logger.critical`, which bypasses the status setter) and return —
otherwise loop and pop again; on a record, replay it into the named task
via `log_record` and take its action as the loop variable, so the loop
stops after the first `run` record.  An exhausted event list models the
call still blocked in `log_queue.get`. -/
def lockToRunLog (self_name : String) :
    TaskDir → List PopEvent → LockLogOutcome
  | dir, [] => ⟨dir, [], [], .starved⟩
  | dir, e :: rest =>
    match e with
    | .timeoutDead =>
      ⟨dir, [],
       [{ task_name := self_name, action := "fail",
          message := "Task \'" ++ self_name ++ "\' crashed in setup",
          start := Option.none, stop := Option.none,
          runtime := Option.none, exc_info := false }],
       .crashedSetup⟩
    | .timeoutAlive => lockToRunLog self_name dir rest
    | .popped r =>
      let dir' := replayRecord dir r
      if r.action = "run" then ⟨dir', [r], [], .sawRun⟩
      else
        let o := lockToRunLog self_name dir' rest
        ⟨o.dir, r :: o.handled, o.selfLog, o.result⟩

/-- The records among a list of events, in order. -/
def eventRecords (es : List Event) : List LogRecord :=
  es.filterMap fun e => match e with
    | .record r => some r
    | _ => Option.none

/-- The `on_success` invocations among a list of events. -/
def eventSuccesses (es : List Event) : List PyVal :=
  es.filterMap fun e => match e with
    | .onSuccess v => some v
    | _ => Option.none

/-- The `on_failure` invocations among a list of events. -/
def eventFailures (es : List Event) : List PyExc :=
  es.filterMap fun e => match e with
    | .onFailure e' => some e'
    | _ => Option.none

/-- The `on_finish` invocations among a list of events. -/
def eventFinishes (es : List Event) : List (Option String) :=
  es.filterMap fun e => match e with
    | .onFinish s => some s
    | _ => Option.none

/-- The status string each body outcome hands to `process_finish`: the
spec-side reading of "the status string of that terminal path". -/
def finishStatusOf : Except PyExc PyVal → Option String
  | .ok _ => some "succeeded"
  | .error .schedulerRestart => some "succeeded"
  | .error .taskInaction => some "inaction"
  | .error .taskTermination => some "termination"
  | .error _ => some "failed"

/-- Replaying a sequence of bridge records into the session, first to
last. -/
def replayAll (dir : TaskDir) (rs : List BridgeRecord) : TaskDir :=
  rs.foldl replayRecord dir

/-- The record a pop event carries, if any. -/
def popRecord : PopEvent → Option BridgeRecord
  | .popped r => some r
  | _ => Option.none

/-- A pop event that does not end the `_lock_to_run_log` loop: a timeout
with the worker still alive, or a record whose action is not `run`. -/
def benignEvent : PopEvent → Bool
  | .timeoutAlive => true
  | .timeoutDead => false
  | .popped r => r.action ≠ "run"

/-- The setup-crash record `_lock_to_run_log` emits through
`logger.critical`. -/
def crashRecord (self_name : String) : LogRecord :=
  { task_name := self_name, action := "fail",
    message := "Task \'" ++ self_name ++ "\' crashed in setup",
    start := Option.none, stop := Option.none, runtime := Option.none,
    exc_info := false }

/-! ### Helper lemmas -/

theorem list_all_congr {α : Type} (l : List α) (f g : α → Bool)
    (h : ∀ a ∈ l, f a = g a) : l.all f = l.all g := by
  induction l with
  | nil => rfl
  | cons a as ih =>
    simp only [List.all_cons, h a (by simp),
      ih (fun x hx => h x (by simp [hx]))]

theorem list_any_congr {α : Type} (l : List α) (f g : α → Bool)
    (h : ∀ a ∈ l, f a = g a) : l.any f = l.any g := by
  induction l with
  | nil => rfl
  | cons a as ih =>
    simp only [List.any_cons, h a (by simp),
      ih (fun x hx => h x (by simp [hx]))]

theorem lookupTask_insertTask_self (reg : Registry) (k : String) (v : Nat) :
    lookupTask (insertTask reg k v) k = some v := by
  induction reg with
  | nil => simp [insertTask, lookupTask]
  | cons p ps ih =>
    by_cases h : p.1 = k <;> simp [insertTask, lookupTask, h, ih]

theorem lookupTask_insertTask_ne (reg : Registry) (k k' : String) (v : Nat)
    (h : k' ≠ k) : lookupTask (insertTask reg k v) k' = lookupTask reg k' := by
  have hne : ¬(k = k') := fun e => h e.symm
  induction reg with
  | nil => simp [insertTask, lookupTask, hne]
  | cons p ps ih =>
    by_cases hp : p.1 = k
    · simp [insertTask, lookupTask, hp, hne]
    · by_cases hp' : p.1 = k' <;>
        simp [insertTask, lookupTask, hp, hp', hne, h, ih]

theorem lookupTask_removeTask_self (reg : Registry) (k : String) :
    lookupTask (removeTask reg k) k = Option.none := by
  induction reg with
  | nil => rfl
  | cons p ps ih =>
    by_cases h : p.1 = k <;> simp [removeTask, lookupTask, h, ih]

theorem lookupTask_removeTask_ne (reg : Registry) (k k' : String)
    (h : k' ≠ k) : lookupTask (removeTask reg k) k' = lookupTask reg k' := by
  induction reg with
  | nil => rfl
  | cons p ps ih =>
    have hne : ¬(k = k') := fun e => h e.symm
    by_cases hp : p.1 = k
    · have hp' : ¬(p.1 = k') := fun e => h (hp ▸ e).symm
      simp [removeTask, lookupTask, hp, hp', hne, h, ih]
    · by_cases hp' : p.1 = k' <;>
        simp [removeTask, lookupTask, hp, hp', hne, h, ih]

theorem getItem_setItem_self (d : ObjDict) (k : String) (v : PyVal) :
    getItem (setItem d k v) k = some v := by
  induction d with
  | nil => simp [setItem, getItem]
  | cons p ps ih =>
    by_cases h : p.1 = k <;> simp [setItem, getItem, h, ih]

theorem getItem_setItem_ne (d : ObjDict) (k k' : String) (v : PyVal)
    (h : k' ≠ k) : getItem (setItem d k v) k' = getItem d k' := by
  have hne : ¬(k = k') := fun e => h e.symm
  induction d with
  | nil => simp [setItem, getItem, hne]
  | cons p ps ih =>
    by_cases hp : p.1 = k
    · simp [setItem, getItem, hp, hne]
    · by_cases hp' : p.1 = k' <;>
        simp [setItem, getItem, hp, hp', hne, h, ih]

theorem evalCond_set_of_not_reaches (n : CondNode) :
    ∀ (fuel : Nat) (σ : CondStore) (r c : Nat),
      reachesWithin σ fuel r c = false →
      evalCond (σ.set c n) fuel r = evalCond σ fuel r := by
  intro fuel
  induction fuel with
  | zero => intro σ r c _; rfl
  | succ fuel ih =>
    intro σ r c h
    have hrc : ¬(r = c) := by
      intro e
      rw [reachesWithin, e] at h
      simp at h
    have hget : (σ.set c n)[r]? = σ[r]? :=
      List.getElem?_set_ne (fun e => hrc e.symm)
    rw [evalCond, evalCond, hget]
    cases hσ : σ[r]? with
    | none => rfl
    | some node =>
      have hch : ∀ x ∈ childRefs node, reachesWithin σ fuel x c = false := by
        intro x hx
        rw [reachesWithin, hσ] at h
        rcases Bool.or_eq_false_iff.mp h with ⟨-, hany⟩
        have := List.any_eq_false.mp hany x hx
        simpa using this
      cases node with
      | alwaysTrue => rfl
      | alwaysFalse => rfl
      | allOf cs =>
        simp only []
        exact list_all_congr cs _ _ (fun x hx => ih σ x c (hch x (by simpa [childRefs] using hx)))
      | anyOf cs =>
        simp only []
        exact list_any_congr cs _ _ (fun x hx => ih σ x c (hch x (by simpa [childRefs] using hx)))
      | notOf c' =>
        simp only []
        rw [ih σ c' c (hch c' (by simp [childRefs]))]

theorem findFreeSuffix_spec (reg : Registry) (name : String) :
    ∀ (fuel start i : Nat), findFreeSuffix reg name fuel start = some i →
      start ≤ i ∧ (lookupTask reg (name ++ toString i)).isNone = true ∧
      ∀ j, start ≤ j → j < i → (lookupTask reg (name ++ toString j)).isSome = true := by
  intro fuel
  induction fuel with
  | zero => intro start i h; simp [findFreeSuffix] at h
  | succ fuel ih =>
    intro start i h
    rw [findFreeSuffix] at h
    by_cases hfree : (lookupTask reg (name ++ toString start)).isNone = true
    · rw [if_pos hfree] at h
      cases h
      exact ⟨Nat.le_refl _, hfree, fun j h₁ h₂ => absurd (Nat.lt_of_le_of_lt h₁ h₂) (Nat.lt_irrefl _)⟩
    · rw [if_neg hfree] at h
      obtain ⟨hle, hfr, hocc⟩ := ih (start + 1) i h
      refine ⟨Nat.le_trans (Nat.le_succ _) hle, hfr, fun j h₁ h₂ => ?_⟩
      rcases Nat.lt_or_ge j (start + 1) with hj | hj
      · have : j = start := Nat.le_antisymm (Nat.lt_succ_iff.mp hj) h₁
        subst this
        simpa [Option.isSome_iff_ne_none, Option.isNone_iff_eq_none] using hfree
      · exact hocc j hj h₂

theorem log_running_eq (t : Task) (now : Nat) :
    log_running t now =
      ({ t with start_time := some now, _status := some "run" },
       [{ task_name := t.name, action := "run", message := "",
          start := some now, stop := Option.none, runtime := Option.none,
          exc_info := false }]) := rfl

theorem log_success_eq (t : Task) (now : Nat) :
    log_success t now =
      ({ t with _status := some "success" },
       [{ task_name := t.name, action := "success", message := "",
          start := t.start_time, stop := some now,
          runtime := runtimeOf t.start_time now,
          exc_info := false }]) := rfl

theorem log_inaction_eq (t : Task) (now : Nat) :
    log_inaction t now =
      ({ t with _status := some "inaction" },
       [{ task_name := t.name, action := "inaction", message := "",
          start := t.start_time, stop := some now,
          runtime := runtimeOf t.start_time now,
          exc_info := false }]) := rfl

theorem log_failure_eq (t : Task) (now : Nat) :
    log_failure t now =
      ({ t with _status := some "fail" },
       [{ task_name := t.name, action := "fail",
          message := "Task \'" ++ t.name ++ "\' failed",
          start := t.start_time, stop := some now,
          runtime := runtimeOf t.start_time now,
          exc_info := true }]) := rfl

theorem log_termination_none_eq (t : Task) (now : Nat) :
    log_termination t now Option.none =
      ({ t with _status := some "terminate", thread_terminate := false,
                force_termination := false },
       [{ task_name := t.name, action := "terminate",
          message := "unknown reason",
          start := t.start_time, stop := some now,
          runtime := runtimeOf t.start_time now,
          exc_info := false }]) := rfl

/-- A concrete task used by the closed counterexample and witness
statements: all three callbacks set. -/
def sampleTask : Task :=
  { name := "mytask", has_on_success := true, has_on_failure := true,
    has_on_finish := true }

/-! ### Claims -/

/-- C4: `Task.__bool__` returns true whenever `force_run` is truthy —
`disabled` notwithstanding — otherwise false when `disabled` is set, and
otherwise the evaluation of `start_cond`. -/
theorem C4_should_run (σ : CondStore) (fuel : Nat) (t : Task) :
    (pyTruthy t.force_run = true → task_bool σ fuel t = true) ∧
    (pyTruthy t.force_run = true → t.disabled = true →
      task_bool σ fuel t = true) ∧
    (pyTruthy t.force_run = false → t.disabled = true →
      task_bool σ fuel t = false) ∧
    (pyTruthy t.force_run = false → t.disabled = false →
      task_bool σ fuel t = evalCond σ fuel t.start_cond) := by
  refine ⟨fun h => ?_, fun h _ => ?_, fun h₁ h₂ => ?_, fun h₁ h₂ => ?_⟩ <;>
    simp [task_bool, *]

/-- Witness for C4 at concrete tasks: a forced, disabled task still runs;
an unforced disabled task does not. -/
theorem C4_should_run_witness :
    task_bool [] 0 { name := "w", force_run := some true, disabled := true } = true ∧
    task_bool [] 0 { name := "w", force_run := some false, disabled := true } = false :=
  ⟨(C4_should_run [] 0 _).2.1 (by decide) (by decide),
   (C4_should_run [] 0 _).2.2.1 (by decide) (by decide)⟩

/-- C7: assigning a status whose action component lies outside `_actions`
raises `KeyError`; the setter raises before any mutation, so no task
state and no record come out of it (the `Except.error` result carries
neither). -/
theorem C7_invalid_status (t : Task) (now : Nat) (v : StatusValue)
    (h : v.action ∉ _actions) :
    setStatus t now v =
      .error (.keyError ("Invalid action: " ++ actionText v.action)) := by
  rw [setStatus]
  simp only [if_pos h]

/-- Witness for C7: the action string `"bogus"` is rejected. -/
theorem C7_invalid_status_witness :
    (StatusValue.bare (some "bogus")).action ∉ _actions ∧
    setStatus sampleTask 0 (.bare (some "bogus")) =
      .error (.keyError "Invalid action: bogus") :=
  ⟨by decide, C7_invalid_status sampleTask 0 (.bare (some "bogus")) (by decide)⟩

/-- C9: the transport snapshot `__getstate__` maps each of the seven
excluded attributes (logger, start/end conditions, process and thread
handles, terminate event, lock) to `None`, and leaves the binding of
every other attribute exactly as in `__dict__`. -/
theorem C9_getstate (d : ObjDict) (k : String) :
    (k ∈ excludedKeys → getItem (getstate d) k = some PyVal.none) ∧
    (k ∉ excludedKeys → getItem (getstate d) k = getItem d k) := by
  have hgs : getstate d =
      setItem (setItem (setItem (setItem (setItem (setItem (setItem
        d "_logger" .none) "_start_cond" .none) "_end_cond" .none)
        "_process" .none) "_thread" .none) "_thread_terminate" .none)
        "_lock" .none := rfl
  constructor
  · intro hk
    simp only [excludedKeys, List.mem_cons, List.mem_singleton] at hk
    rcases hk with rfl | rfl | rfl | rfl | rfl | rfl | rfl | h
    · rw [hgs, getItem_setItem_ne _ _ _ _ (by decide),
        getItem_setItem_ne _ _ _ _ (by decide),
        getItem_setItem_ne _ _ _ _ (by decide),
        getItem_setItem_ne _ _ _ _ (by decide),
        getItem_setItem_ne _ _ _ _ (by decide),
        getItem_setItem_ne _ _ _ _ (by decide), getItem_setItem_self]
    · rw [hgs, getItem_setItem_ne _ _ _ _ (by decide),
        getItem_setItem_ne _ _ _ _ (by decide),
        getItem_setItem_ne _ _ _ _ (by decide),
        getItem_setItem_ne _ _ _ _ (by decide),
        getItem_setItem_ne _ _ _ _ (by decide), getItem_setItem_self]
    · rw [hgs, getItem_setItem_ne _ _ _ _ (by decide),
        getItem_setItem_ne _ _ _ _ (by decide),
        getItem_setItem_ne _ _ _ _ (by decide),
        getItem_setItem_ne _ _ _ _ (by decide), getItem_setItem_self]
    · rw [hgs, getItem_setItem_ne _ _ _ _ (by decide),
        getItem_setItem_ne _ _ _ _ (by decide),
        getItem_setItem_ne _ _ _ _ (by decide), getItem_setItem_self]
    · rw [hgs, getItem_setItem_ne _ _ _ _ (by decide),
        getItem_setItem_ne _ _ _ _ (by decide), getItem_setItem_self]
    · rw [hgs, getItem_setItem_ne _ _ _ _ (by decide), getItem_setItem_self]
    · rw [hgs, getItem_setItem_self]
    · exact absurd h (List.not_mem_nil _)
  · intro hk
    simp only [excludedKeys, List.mem_cons, List.mem_singleton] at hk
    push_neg at hk
    obtain ⟨h₁, h₂, h₃, h₄, h₅, h₆, h₇, -⟩ := hk
    rw [hgs, getItem_setItem_ne _ _ _ _ h₇, getItem_setItem_ne _ _ _ _ h₆,
      getItem_setItem_ne _ _ _ _ h₅, getItem_setItem_ne _ _ _ _ h₄,
      getItem_setItem_ne _ _ _ _ h₃, getItem_setItem_ne _ _ _ _ h₂,
      getItem_setItem_ne _ _ _ _ h₁]

/-- Witness for C9: the logger is nulled, `_parameters` travels
unchanged. -/
theorem C9_getstate_witness :
    ("_logger" ∈ excludedKeys ∧
      getItem (getstate [("_logger", .int 1), ("_parameters", .str "p")])
        "_logger" = some PyVal.none) ∧
    ("_parameters" ∉ excludedKeys ∧
      getItem (getstate [("_logger", .int 1), ("_parameters", .str "p")])
        "_parameters" = some (PyVal.str "p")) :=
  ⟨⟨by decide,
    (C9_getstate [("_logger", .int 1), ("_parameters", .str "p")]
      "_logger").1 (by decide)⟩,
   ⟨by decide, by
    rw [(C9_getstate [("_logger", .int 1), ("_parameters", .str "p")]
      "_parameters").2 (by decide)]
    rfl⟩⟩

theorem setStatusD_valid (t : Task) (now : Nat) (v : StatusValue) (a : String)
    (hv : v.action = some a) (ha : some a ∈ _actions) :
    setStatusD t now v =
      if a = "run" then
        ({ t with start_time := some now, _status := some a },
         [{ task_name := t.name, action := a, message := v.message,
            start := some now, stop := Option.none, runtime := Option.none,
            exc_info := false }])
      else
        ({ t with _status := some a },
         [{ task_name := t.name, action := a, message := v.message,
            start := t.start_time, stop := some now,
            runtime := runtimeOf t.start_time now,
            exc_info := a = "fail" }]) := by
  have hni : ¬(some a ∉ _actions) := fun hn => hn ha
  simp only [setStatusD, setStatus, hv, if_neg hni]
  by_cases hrun : a = "run" <;> simp [hrun]

/-- C10: the status setter takes a bare action or an `(action, message)`
pair; for any accepted non-`None` action, only the action component
reaches the cached `_status` while the message component (empty for the
bare form) becomes the emitted record's `message`; `log_failure` and
`log_termination` use the pair form, so their messages reach the record
and never `_status`. -/
theorem C10_status_message (t : Task) (now : Nat) (a : String) (m r : String)
    (ha : some a ∈ _actions) (hr : ¬(r = "")) :
    ((setStatusD t now (.pair (some a) m)).1._status = some a ∧
     (setStatusD t now (.pair (some a) m)).2.map LogRecord.message = [m]) ∧
    ((setStatusD t now (.bare (some a))).1._status = some a ∧
     (setStatusD t now (.bare (some a))).2.map LogRecord.message = [""]) ∧
    ((log_failure t now).1._status = some "fail" ∧
     (log_failure t now).2.map LogRecord.message =
       ["Task \'" ++ t.name ++ "\' failed"]) ∧
    ((log_termination t now (some r)).1._status = some "terminate" ∧
     (log_termination t now (some r)).2.map LogRecord.message = [r]) := by
  have hmem : ¬(some a ∉ _actions) := fun hn => hn ha
  refine ⟨?_, ?_, ?_, ?_⟩
  · rw [setStatusD_valid t now (.pair (some a) m) a rfl ha]
    by_cases hrun : a = "run" <;> simp [hrun, StatusValue.message]
  · rw [setStatusD_valid t now (.bare (some a)) a rfl ha]
    by_cases hrun : a = "run" <;> simp [hrun, StatusValue.message]
  · simp [log_failure_eq]
  · simp [log_termination, setStatusD, setStatus, StatusValue.action,
      StatusValue.message, hr, _actions]

/-- Witness for C10 at the action `"success"` with message `"hello"` and
a termination reason `"why"`. -/
theorem C10_status_message_witness :
    some "success" ∈ _actions ∧
    (setStatusD sampleTask 0 (.pair (some "success") "hello")).1._status =
      some "success" ∧
    (setStatusD sampleTask 0
      (.pair (some "success") "hello")).2.map LogRecord.message = ["hello"] ∧
    (log_termination sampleTask 0 (some "why")).2.map LogRecord.message =
      ["why"] :=
  ⟨by decide,
   (C10_status_message sampleTask 0 "success" "hello" "why" (by decide)
     (by decide)).1.1,
   (C10_status_message sampleTask 0 "success" "hello" "why" (by decide)
     (by decide)).1.2,
   (C10_status_message sampleTask 0 "success" "hello" "why" (by decide)
     (by decide)).2.2.2.2⟩

/-- C5: on every terminal path of `run_as_main` — normal return, ordinary
exception, `Inaction`, `Termination`, `SchedulerRestart` (where the
handler itself crashes on the unbound local) — `process_finish` runs
exactly once, with the status string of that path, and `force_run` is
cleared to `None`, also on the paths that re-raise. -/
theorem C5_process_finish (t : Task) (now₁ now₂ : Nat)
    (body : Except PyExc PyVal) (flag : Bool) (h : t.has_on_finish = true) :
    eventFinishes (run_as_main t now₁ now₂ body flag).events =
      [finishStatusOf body] ∧
    (run_as_main t now₁ now₂ body flag).task.force_run = Option.none := by
  have hcases :
      ∀ (u : Task) (o : PyVal), eventFinishes (process_success u o) = [] := by
    intro u o
    by_cases hs : u.has_on_success <;> simp [process_success, eventFinishes, hs]
  have hcasef :
      ∀ (u : Task) (e : PyExc), eventFinishes (process_failure u e) = [] := by
    intro u e
    by_cases hs : u.has_on_failure <;> simp [process_failure, eventFinishes, hs]
  rcases body with e | v
  · cases e <;> cases flag <;>
      simp [run_as_main, log_running_eq, log_success_eq, log_inaction_eq,
        log_termination_none_eq, log_failure_eq, readLocal, process_finish,
        eventFinishes, finishStatusOf, hcases, hcasef, h] <;>
      (intro a ha
       simp only [process_failure, process_success] at ha
       split at ha <;> simp_all)
  · cases flag <;>
      simp [run_as_main, log_running_eq, log_success_eq, process_finish,
        eventFinishes, finishStatusOf, hcases, h] <;>
      (intro a ha
       simp only [process_failure, process_success] at ha
       split at ha <;> simp_all)

/-- Witness for C5 at a concrete task and the inaction path. -/
theorem C5_process_finish_witness :
    sampleTask.has_on_finish = true ∧
    eventFinishes
      (run_as_main sampleTask 0 1 (.error .taskInaction) true).events =
      [some "inaction"] ∧
    (run_as_main sampleTask 0 1 (.error .taskInaction) true).task.force_run =
      Option.none :=
  ⟨by decide,
   (C5_process_finish sampleTask 0 1 (.error .taskInaction) true (by decide)).1,
   (C5_process_finish sampleTask 0 1 (.error .taskInaction) true (by decide)).2⟩

/-- C3, amended: on the inline path, an ordinary exception yields a `run`
record followed by one `fail` record whose message is the fixed string
`Task \'<name>\' failed` — not the exception's own text, which travels only
as `exc_info` — while the exception object is attached to the task,
`on_failure` runs exactly once with it, the cached status becomes `fail`,
and the same exception is re-raised to the caller. -/
theorem C3_fail_path (t : Task) (m : String) (now₁ now₂ : Nat)
    (hf : t.has_on_failure = true) :
    eventRecords (run_as_main t now₁ now₂ (.error (.error m)) true).events =
      [{ task_name := t.name, action := "run", message := "",
         start := some now₁, stop := Option.none, runtime := Option.none,
         exc_info := false },
       { task_name := t.name, action := "fail",
         message := "Task \'" ++ t.name ++ "\' failed",
         start := some now₁, stop := some now₂,
         runtime := some ((now₂ : Int) - (now₁ : Int)), exc_info := true }] ∧
    eventFailures (run_as_main t now₁ now₂ (.error (.error m)) true).events =
      [.error m] ∧
    (run_as_main t now₁ now₂ (.error (.error m)) true).task.exception =
      some (.error m) ∧
    (run_as_main t now₁ now₂ (.error (.error m)) true).task._status =
      some "fail" ∧
    (run_as_main t now₁ now₂ (.error (.error m)) true).outcome =
      .raised (.error m) := by
  by_cases hfin : t.has_on_finish <;>
    simp [run_as_main, log_running_eq, log_failure_eq, process_failure,
      process_finish, eventRecords, eventFailures, runtimeOf, hf, hfin]

/-- Witness for C3's amended statement at a concrete task. -/
theorem C3_fail_path_witness :
    sampleTask.has_on_failure = true ∧
    eventFailures
      (run_as_main sampleTask 0 1 (.error (.error "boom")) true).events =
      [.error "boom"] ∧
    (run_as_main sampleTask 0 1 (.error (.error "boom")) true).outcome =
      .raised (.error "boom") :=
  ⟨by decide,
   (C3_fail_path sampleTask "boom" 0 1 (by decide)).2.1,
   (C3_fail_path sampleTask "boom" 0 1 (by decide)).2.2.2.2⟩

/-- Counterexample to C3 as stated: with a body raising an exception whose
`str` is `boom`, the `fail` record's message is the fixed string
`Task \'mytask\' failed`, not `boom`. -/
theorem C3_counterexample :
    (eventRecords
      (run_as_main sampleTask 0 1 (.error (.error "boom")) true).events).map
        LogRecord.message = ["", "Task \'mytask\' failed"] ∧
    ∀ r ∈ eventRecords
        (run_as_main sampleTask 0 1 (.error (.error "boom")) true).events,
      r.action = "fail" → ¬(r.message = "boom") := by decide

/-- C1 (code bug): when the body raises `SchedulerRestart`, the task is
logged `success` and `process_finish` still runs in `finally`, but the
handler's `self.process_success(output)` reads the local `output` that the
failed `try` block never assigned, so `on_success` is never invoked and
the caller of `run_as_main` receives `UnboundLocalError`, not the
re-raised `SchedulerRestart`. -/
theorem C1_scheduler_restart_bug :
    ((eventRecords
      (run_as_main sampleTask 0 1 (.error .schedulerRestart) true).events).map
        LogRecord.action = ["run", "success"] ∧
     (run_as_main sampleTask 0 1 (.error .schedulerRestart) true).task._status =
       some "success" ∧
     eventFinishes
       (run_as_main sampleTask 0 1 (.error .schedulerRestart) true).events =
       [some "succeeded"]) ∧
    eventSuccesses
      (run_as_main sampleTask 0 1 (.error .schedulerRestart) true).events =
      [] ∧
    (run_as_main sampleTask 0 1 (.error .schedulerRestart) true).outcome =
      .raised (.unboundLocal "output") ∧
    ¬((run_as_main sampleTask 0 1 (.error .schedulerRestart) true).outcome =
      .raised .schedulerRestart) := by decide

/-- Counterexample to C2 as stated: the caller's tree is `All(AlwaysTrue)`
(root at reference 0, child at 1).  Constructor assignment shallow-copies
only the root, so after the assignment a mutation of the caller's child
node — overwriting reference 1 with `AlwaysFalse` — flips the task's
evaluated condition from true to false. -/
theorem C2_counterexample :
    evalCond
        (init_start_cond [CondNode.allOf [1], CondNode.alwaysTrue]
          sampleTask (some 0)).1 3
        ((init_start_cond [CondNode.allOf [1], CondNode.alwaysTrue]
          sampleTask (some 0)).2.start_cond) = true ∧
    evalCond
        ((init_start_cond [CondNode.allOf [1], CondNode.alwaysTrue]
          sampleTask (some 0)).1.set 1 .alwaysFalse) 3
        ((init_start_cond [CondNode.allOf [1], CondNode.alwaysTrue]
          sampleTask (some 0)).2.start_cond) = false := by decide

/-- C2, amended: constructor assignment copies only the root object
(`copy.copy`) and the property setters copy nothing, so mutating a node
the task's stored condition still reaches changes the task's evaluated
result; isolation holds exactly for mutations of objects *not* reachable
from the task's stored root — in particular overwriting the caller's own
root object after constructor assignment, which the fresh copy does not
reference. -/
theorem C2_condition_isolation (σ : CondStore) (t : Task) (r c : Nat)
    (n : CondNode) (fuel : Nat)
    (h : reachesWithin (init_start_cond σ t (some r)).1 fuel
          ((init_start_cond σ t (some r)).2.start_cond) c = false) :
    evalCond ((init_start_cond σ t (some r)).1.set c n) fuel
        ((init_start_cond σ t (some r)).2.start_cond) =
      evalCond (init_start_cond σ t (some r)).1 fuel
        ((init_start_cond σ t (some r)).2.start_cond) :=
  evalCond_set_of_not_reaches n fuel _ _ c h

/-- Witness for C2's amended statement: overwriting the caller's root
(reference 0) after constructor assignment leaves the task's evaluation
unchanged, since the fresh copy does not reach it. -/
theorem C2_condition_isolation_witness :
    reachesWithin
      (init_start_cond [CondNode.allOf [1], CondNode.alwaysTrue]
        sampleTask (some 0)).1 3
      ((init_start_cond [CondNode.allOf [1], CondNode.alwaysTrue]
        sampleTask (some 0)).2.start_cond) 0 = false ∧
    evalCond
        ((init_start_cond [CondNode.allOf [1], CondNode.alwaysTrue]
          sampleTask (some 0)).1.set 0 .alwaysFalse) 3
        ((init_start_cond [CondNode.allOf [1], CondNode.alwaysTrue]
          sampleTask (some 0)).2.start_cond) =
      evalCond
        (init_start_cond [CondNode.allOf [1], CondNode.alwaysTrue]
          sampleTask (some 0)).1 3
        ((init_start_cond [CondNode.allOf [1], CondNode.alwaysTrue]
          sampleTask (some 0)).2.start_cond) :=
  ⟨by decide,
   C2_condition_isolation [CondNode.allOf [1], CondNode.alwaysTrue]
     sampleTask 0 0 .alwaysFalse 3 (by decide)⟩

/-- Counterexample to C6 as stated: the first pop times out while the
worker is still alive; no `fail` record is logged and the dispatcher does
not return but pops again, reaching the `run` record. -/
theorem C6_counterexample :
    (lockToRunLog "w" []
      [.timeoutAlive, .popped ⟨"w", "run", ""⟩]).selfLog = [] ∧
    (lockToRunLog "w" []
      [.timeoutAlive, .popped ⟨"w", "run", ""⟩]).result = .sawRun := by decide

/-- C6, amended: the dispatcher pops with the blocking 10-second timeout
and replays every popped record into the named session task via
`log_record`, stopping at the first record whose action is `run`; a pop
that times out makes it log `fail` with a message containing
`crashed in setup` and return only when the worker is also no longer
alive — a timeout with the worker alive just pops again. -/
theorem C6_lock_to_run (self_name : String) (dir : TaskDir)
    (pre rest : List PopEvent)
    (hpre : ∀ e ∈ pre, benignEvent e = true) :
    (∀ r : BridgeRecord, r.action = "run" →
      lockToRunLog self_name dir (pre ++ .popped r :: rest) =
        ⟨replayAll dir (pre.filterMap popRecord ++ [r]),
         pre.filterMap popRecord ++ [r], [], .sawRun⟩) ∧
    (lockToRunLog self_name dir (pre ++ .timeoutDead :: rest) =
        ⟨replayAll dir (pre.filterMap popRecord),
         pre.filterMap popRecord, [crashRecord self_name],
         .crashedSetup⟩) ∧
    (crashRecord self_name).action = "fail" ∧
    (∃ p : String,
      (crashRecord self_name).message = p ++ "crashed in setup") := by
  refine ⟨?_, ?_, rfl, ⟨"Task \'" ++ self_name ++ "\' ", ?_⟩⟩
  · intro r hrun
    induction pre generalizing dir with
    | nil => simp [lockToRunLog, replayAll, hrun]
    | cons e pre' ih =>
      have hb : benignEvent e = true := hpre e (by simp)
      have hpre' : ∀ x ∈ pre', benignEvent x = true :=
        fun x hx => hpre x (by simp [hx])
      cases e with
      | timeoutAlive =>
        simp only [List.cons_append, lockToRunLog, List.append_eq]
        rw [ih dir hpre']
        simp [popRecord]
      | timeoutDead => simp [benignEvent] at hb
      | popped r' =>
        have hne : ¬(r'.action = "run") := by
          simpa [benignEvent] using hb
        simp only [List.cons_append, lockToRunLog, List.append_eq]
        rw [if_neg hne, ih (replayRecord dir r') hpre']
        simp [popRecord, replayAll]
  · induction pre generalizing dir with
    | nil => simp [lockToRunLog, replayAll, crashRecord]
    | cons e pre' ih =>
      have hb : benignEvent e = true := hpre e (by simp)
      have hpre' : ∀ x ∈ pre', benignEvent x = true :=
        fun x hx => hpre x (by simp [hx])
      cases e with
      | timeoutAlive =>
        simp only [List.cons_append, lockToRunLog, List.append_eq]
        rw [ih dir hpre']
        simp [popRecord]
      | timeoutDead => simp [benignEvent] at hb
      | popped r' =>
        have hne : ¬(r'.action = "run") := by
          simpa [benignEvent] using hb
        simp only [List.cons_append, lockToRunLog, List.append_eq]
        rw [if_neg hne, ih (replayRecord dir r') hpre']
        simp [popRecord, replayAll]
  · show ("Task \'" ++ self_name) ++ "\' crashed in setup" =
      (("Task \'" ++ self_name) ++ "\' ") ++ "crashed in setup"
    have h1 : ("\' " : String) ++ "crashed in setup" = "\' crashed in setup" := by
      decide
    rw [String.append_assoc ("Task \'" ++ self_name) "\' " "crashed in setup",
      h1]

/-- Witness for C6's amended statement: one alive-timeout followed by a
dead-timeout yields exactly the setup-crash record. -/
theorem C6_lock_to_run_witness :
    (∀ e ∈ [PopEvent.timeoutAlive], benignEvent e = true) ∧
    lockToRunLog "w" [] [.timeoutAlive, .timeoutDead] =
      ⟨[], [], [crashRecord "w"], .crashedSetup⟩ :=
  ⟨by decide, by
    have h := (C6_lock_to_run "w" [] [.timeoutAlive] [] (by decide)).2.1
    simpa using h⟩

theorem finishAssign_insert_post (st : NameState) (nm : String) (tid : Nat)
    (hold : ∀ old, st._name = some old → ¬(old = nm)) :
    (finishAssign { st with session := insertTask st.session nm tid }
      nm st._name)._name = some nm ∧
    lookupTask (finishAssign { st with session := insertTask st.session nm tid }
      nm st._name).session nm = some tid ∧
    ∀ old, st._name = some old →
      lookupTask (finishAssign
        { st with session := insertTask st.session nm tid }
        nm st._name).session old = Option.none := by
  cases hn : st._name with
  | none => simp [finishAssign, lookupTask_insertTask_self]
  | some old =>
    have hne : ¬(old = nm) := hold old hn
    refine ⟨rfl, ?_, ?_⟩
    · show lookupTask (removeTask (insertTask st.session nm tid) old) nm =
        some tid
      rw [lookupTask_removeTask_ne _ _ _ (fun e => hne e.symm)]
      exact lookupTask_insertTask_self _ _ _
    · intro old' hold'
      cases hold'
      exact lookupTask_removeTask_self _ _

theorem setName_free (policy : String) (fuel : Nat) (st : NameState)
    (tid : Nat) (nm dn : String)
    (hne : ¬(some nm = st._name))
    (hfree : lookupTask st.session nm = Option.none) :
    setName policy (fuel + 1) st tid (some nm) dn =
      .ok (finishAssign { st with session := insertTask st.session nm tid }
        nm st._name) := by
  simp [setName, hne, hfree]

theorem setName_rename_step (fuel : Nat) (st : NameState) (tid : Nat)
    (nm dn : String) (i : Nat)
    (hne : ¬(some nm = st._name))
    (hocc : (lookupTask st.session nm).isSome = true)
    (hfind : firstFreeSuffix st.session nm = some i)
    (hne2 : ¬(some (nm ++ toString i) = st._name)) :
    setName "rename" (fuel + 2) st tid (some nm) dn =
      .ok (finishAssign
        { st with session := insertTask st.session (nm ++ toString i) tid }
        (nm ++ toString i) st._name) := by
  have hfind' : findFreeSuffix st.session nm (st.session.length + 1) 0 =
      some i := hfind
  have hfree2 : lookupTask st.session (nm ++ toString i) = Option.none := by
    have h2 := (findFreeSuffix_spec st.session nm (st.session.length + 1)
      0 i hfind').2.1
    simpa [Option.isNone_iff_eq_none] using h2
  have hstep : setName "rename" (fuel + 1 + 1) st tid (some nm) dn =
      setName "rename" (fuel + 1) st tid (some (nm ++ toString i)) dn := by
    rw [setName]
    simp [hne, hocc, hfind]
  rw [show fuel + 2 = fuel + 1 + 1 from rfl, hstep,
    setName_free "rename" fuel st tid (nm ++ toString i) dn hne2 hfree2]

/-- Counterexample to C8 as stated: the task named `a` is renamed to `b`
while `b` is already registered to another task under the `ignore`
collision policy.  The assignment completes with `.ok`, yet afterwards
the registry still maps `b` to the *other* task (1, not 0) even though
the renamed task's own name is now `b` — and `a` has been deleted, so
the renamed task is not registered at all. -/
theorem C8_counterexample :
    setName "ignore" 5 ⟨[("a", 0), ("b", 1)], some "a"⟩ 0 (some "b") "d" =
      .ok ⟨[("b", 1)], some "b"⟩ ∧
    ¬(lookupTask [("b", 1)] "b" = some 0) := by decide

/-- C8, amended: the name setter is a no-op when the new name equals the
current one; when the resolved name is unregistered, or the collision
policy is `replace` or `rename`, the completed assignment updates both
directions — the registry maps the final name to the task and no longer
contains the old name, and the task's own name equals the final name,
which under `rename` is the original name with the smallest integer
suffix appended that makes it free (so registering `t` when `t` and `t0`
exist yields `t1`).  Under the `ignore` policy a colliding assignment
does not register the task (the registry keeps the pre-existing task
under the new name) although it still deletes the old name and rebinds
the task's own name. -/
theorem C8_name_setter (policy : String) (fuel : Nat) (st : NameState)
    (tid : Nat) (nm dn : String) :
    (some nm = st._name →
      setName policy (fuel + 1) st tid (some nm) dn = .ok st) ∧
    (¬(some nm = st._name) → lookupTask st.session nm = Option.none →
      ∃ st', setName policy (fuel + 1) st tid (some nm) dn = .ok st' ∧
        st'._name = some nm ∧
        lookupTask st'.session nm = some tid ∧
        ∀ old, st._name = some old →
          lookupTask st'.session old = Option.none) ∧
    (¬(some nm = st._name) → (lookupTask st.session nm).isSome = true →
      ∃ st', setName "replace" (fuel + 1) st tid (some nm) dn = .ok st' ∧
        st'._name = some nm ∧
        lookupTask st'.session nm = some tid ∧
        ∀ old, st._name = some old →
          lookupTask st'.session old = Option.none) ∧
    (¬(some nm = st._name) → (lookupTask st.session nm).isSome = true →
      ∀ i, firstFreeSuffix st.session nm = some i →
        ¬(some (nm ++ toString i) = st._name) →
        (lookupTask st.session (nm ++ toString i) = Option.none ∧
         ∀ j, j < i →
           (lookupTask st.session (nm ++ toString j)).isSome = true) ∧
        ∃ st', setName "rename" (fuel + 2) st tid (some nm) dn = .ok st' ∧
          st'._name = some (nm ++ toString i) ∧
          lookupTask st'.session (nm ++ toString i) = some tid ∧
          ∀ old, st._name = some old →
            lookupTask st'.session old = Option.none) := by
  refine ⟨?_, ?_, ?_, ?_⟩
  · intro h
    simp [setName, h]
  · intro hne hfree
    have hold : ∀ old, st._name = some old → ¬(old = nm) := by
      intro old h e
      exact hne (by rw [h, e])
    obtain ⟨h₁, h₂, h₃⟩ := finishAssign_insert_post st nm tid hold
    exact ⟨_, setName_free policy fuel st tid nm dn hne hfree, h₁, h₂, h₃⟩
  · intro hne hocc
    have hold : ∀ old, st._name = some old → ¬(old = nm) := by
      intro old h e
      exact hne (by rw [h, e])
    obtain ⟨h₁, h₂, h₃⟩ := finishAssign_insert_post st nm tid hold
    refine ⟨_, ?_, h₁, h₂, h₃⟩
    simp [setName, hne, hocc]
  · intro hne hocc i hfind hne2
    have hfind' : findFreeSuffix st.session nm (st.session.length + 1) 0 =
        some i := hfind
    have hspec := findFreeSuffix_spec st.session nm (st.session.length + 1)
      0 i hfind'
    have hold : ∀ old, st._name = some old → ¬(old = nm ++ toString i) := by
      intro old h e
      exact hne2 (by rw [h, e])
    obtain ⟨h₁, h₂, h₃⟩ :=
      finishAssign_insert_post st (nm ++ toString i) tid hold
    refine ⟨⟨by simpa [Option.isNone_iff_eq_none] using hspec.2.1,
      fun j hj => hspec.2.2 j (Nat.zero_le _) hj⟩,
      _, setName_rename_step fuel st tid nm dn i hne hocc hfind hne2,
      h₁, h₂, h₃⟩

/-- Witness for C8's amended statement: the spec's rename scenario — the
registry holds `t` and `t0`, a third task registers as `t`, and the
smallest free suffix yields `t1`, registered to the new task. -/
theorem C8_name_setter_witness :
    (lookupTask [("t", 0), ("t0", 1)] "t").isSome = true ∧
    firstFreeSuffix [("t", 0), ("t0", 1)] "t" = some 1 ∧
    (∃ st', setName "rename" 5 ⟨[("t", 0), ("t0", 1)], Option.none⟩ 2
        (some "t") "d" = .ok st' ∧
      st'._name = some ("t" ++ toString 1) ∧
      lookupTask st'.session ("t" ++ toString 1) = some 2 ∧
      ∀ old, (Option.none : Option String) = some old →
        lookupTask st'.session old = Option.none) :=
  ⟨by decide, by decide,
   ((C8_name_setter "rename" 3 ⟨[("t", 0), ("t0", 1)], Option.none⟩ 2 "t"
      "d").2.2.2 (by decide) (by decide) 1 (by decide) (by decide)).2⟩

end Powerbase
